import Mathlib

/-
Formal model of the meeting-intent resolution and scheduling decision core of
an email assistant (source files main.py and database.py).  Python text is
modelled over Lean String / List Char, timestamps as Int minutes in the single
operating timezone (Asia/Dubai), fallible Python code as Except PyErr, and
external collaborators (regex match results of complex groups, dateparser,
dateutil, the AI completion service, the calendar availability service, the
console) as explicit oracle inputs.  Regex compilation is modelled concretely
enough to capture parenthesis balancing, and the boundary patterns of the
thread extractor are modelled by a small executable matcher.
-/

/-- Errors the modelled Python runtime can raise. -/
inductive PyErr where
  | reError
  | valueError
  | apiError
deriving DecidableEq, Repr

/-- ASCII lower-casing of one character, modelling Python str.lower on the ASCII range. -/
def lowerChar (c : Char) : Char :=
  if 65 ≤ c.toNat ∧ c.toNat ≤ 90 then Char.ofNat (c.toNat + 32) else c

/-- Lower-case a string, modelling Python str.lower for ASCII text. -/
def lowerStr (s : String) : String := ⟨s.data.map lowerChar⟩

/-- Whitespace characters removed by Python str.strip. -/
def isWsChar (c : Char) : Bool :=
  c == ' ' || c == '\t' || c == '\n' || c == '\r' || c == Char.ofNat 11 || c == Char.ofNat 12

/-- Strip whitespace from both ends of a character list, modelling Python str.strip. -/
def stripL (l : List Char) : List Char :=
  ((l.dropWhile isWsChar).reverse.dropWhile isWsChar).reverse

/-- Strip whitespace from both ends of a string. -/
def stripStr (s : String) : String := ⟨stripL s.data⟩

/-- Does the first list occur at the start of the second. -/
def isPrefixL : List Char → List Char → Bool
  | [], _ => true
  | _ :: _, [] => false
  | p :: ps, h :: hs => p == h && isPrefixL ps hs

/-- Substring containment, modelling the Python in operator on strings. -/
def containsL (pat : List Char) : List Char → Bool
  | [] => isPrefixL pat []
  | c :: cs => isPrefixL pat (c :: cs) || containsL pat cs

/-- Substring containment on strings. -/
def strIn (pat hay : String) : Bool := containsL pat.data hay.data

/-- Plain split on newline characters; the result always has one more piece than separators. -/
def splitNl : List Char → List (List Char)
  | [] => [[]]
  | '\n' :: cs => [] :: splitNl cs
  | c :: cs =>
    match splitNl cs with
    | p :: ps => (c :: p) :: ps
    | [] => [[c]]

/-- Drop a final empty piece, so that the composition with splitNl models Python
str.splitlines for newline-terminated text. -/
def dropLastEmpty : List (List Char) → List (List Char)
  | [] => []
  | [l] => if l.isEmpty then [] else [l]
  | l :: l2 :: ls => l :: dropLastEmpty (l2 :: ls)

/-- Model of Python str.splitlines restricted to the newline separator. -/
def splitLinesL (l : List Char) : List (List Char) := dropLastEmpty (splitNl l)

/-- Join lines with single newline characters, modelling newline join. -/
def joinNl (ls : List (List Char)) : List Char := (ls.intersperse ['\n']).flatten

/-- Tiny regex fragment language covering the boundary patterns of the extractor:
case-insensitive literals, a digit class, dot-star and char-star repetition. -/
inductive RElem where
  | lit (c : Char)
  | anyDigit
  | dotStar
  | charStar (c : Char)
deriving DecidableEq, Repr

/-- Fuelled matcher: does the pattern match some prefix of the text, case-insensitively.
Dot-star consumes any character, matching the DOTALL use in the greedy fallback;
per-line matching is unaffected since lines hold no newline. -/
def matchAtF : Nat → List RElem → List Char → Bool
  | 0, _, _ => false
  | _ + 1, [], _ => true
  | fuel + 1, RElem.lit c :: ps, t =>
    match t with
    | [] => false
    | x :: xs => lowerChar x == lowerChar c && matchAtF fuel ps xs
  | fuel + 1, RElem.anyDigit :: ps, t =>
    match t with
    | [] => false
    | x :: xs => x.isDigit && matchAtF fuel ps xs
  | fuel + 1, RElem.dotStar :: ps, t =>
    matchAtF fuel ps t ||
      (match t with
       | [] => false
       | _ :: xs => matchAtF fuel (RElem.dotStar :: ps) xs)
  | fuel + 1, RElem.charStar c :: ps, t =>
    matchAtF fuel ps t ||
      (match t with
       | [] => false
       | x :: xs => lowerChar x == lowerChar c && matchAtF fuel (RElem.charStar c :: ps) xs)

/-- Fuel sufficient for the matcher: the recursion decreases the pair of text and
pattern lengths lexicographically. -/
def matchFuel (p : List RElem) (t : List Char) : Nat := (p.length + 1) * (t.length + 1)

/-- Does the pattern match starting exactly at the head of the text. -/
def matchHere (p : List RElem) (t : List Char) : Bool := matchAtF (matchFuel p t) p t

/-- Search for the pattern anywhere in the text, modelling re.search. -/
def searchIn (p : List RElem) : List Char → Bool
  | [] => matchHere p []
  | c :: cs => matchHere p (c :: cs) || searchIn p cs

/-- Literal characters of a pattern. -/
def lits (s : String) : List RElem := s.data.map RElem.lit

/-- A run of n digit classes. -/
def digitRun (n : Nat) : List RElem := List.replicate n RElem.anyDigit

/-- Quote and signature boundary patterns of the source extractor, one entry per
source regex, in source order. -/
def quotePatterns : List (List RElem) :=
  [ lits "On " ++ [RElem.dotStar] ++ lits " wrote:"
  , lits "Le " ++ [RElem.dotStar] ++ lits " écrit :"
  , lits "El " ++ [RElem.dotStar] ++ lits " escribió:"
  , digitRun 4 ++ lits "-" ++ digitRun 2 ++ lits "-" ++ digitRun 2 ++ lits " " ++
      digitRun 2 ++ lits ":" ++ digitRun 2 ++ lits " " ++ [RElem.dotStar] ++
      lits " <" ++ [RElem.dotStar] ++ lits ">:"
  , lits "From: " ++ [RElem.dotStar]
  , lits "-----Original Message-----"
  , List.replicate 10 (RElem.lit '_') ++ [RElem.charStar '_']
  , List.replicate 10 (RElem.lit '-') ++ [RElem.charStar '-']
  , lits "Sent from my " ++ [RElem.dotStar] ]

/-- Does any boundary pattern match anywhere in the line. -/
def lineMatchesAny (l : List Char) : Bool := quotePatterns.any (fun p => searchIn p l)

/-- Does a line start with a quote marker. -/
def isQuoteStart : List Char → Bool
  | [] => false
  | c :: _ => c == '>' || c == '|'

/-- Is a line whitespace-only, modelling the falsity of line.strip() in Python. -/
def isBlankLine (l : List Char) : Bool := l.all isWsChar

/-- Line loop of the extractor: stop consuming at the first boundary line, and
drop blank lines and lines starting with a quote marker. -/
def keepLines : List (List Char) → List (List Char)
  | [] => []
  | l :: ls =>
    if lineMatchesAny l then []
    else if isBlankLine l || isQuoteStart l then keepLines ls
    else l :: keepLines ls

/-- Does some boundary pattern match starting exactly at this position. -/
def anyPatternHere (t : List Char) : Bool := quotePatterns.any (fun p => matchHere p t)

/-- Scan for the earliest position where a boundary pattern matches; return the
text before it.  Models the greedy fallback regex of the extractor. -/
def greedySplit (acc rest : List Char) : Option (List Char) :=
  if anyPatternHere rest then some acc.reverse
  else
    match rest with
    | [] => none
    | c :: cs => greedySplit (c :: acc) cs

/-- Text before the first boundary match in the whole body, if any. -/
def greedyBoundaryCut (body : List Char) : Option (List Char) := greedySplit [] body

/-- Model of the method that extracts the latest message from a thread:
per-line boundary stripping, then a greedy whole-body fallback when the
per-line result is shorter than 50 characters, then a final strip. -/
def extractLatestMessageL (body : List Char) : List Char :=
  let lines := splitLinesL body
  let cleanBody := joinNl (keepLines lines)
  let cleanBody2 :=
    if cleanBody.length < 50 then
      match greedyBoundaryCut body with
      | some pfx => stripL pfx
      | none => cleanBody
    else cleanBody
  stripL cleanBody2

/-- String form of the extractor. -/
def extractLatestMessage (body : String) : String := ⟨extractLatestMessageL body.data⟩

/-- Meeting-intent vocabulary of the classifier, transcribed from the source. -/
def meetingPhrases : List String :=
  [ "meet", "meeting", "gathering", "appointment", "session", "conference", "consultation"
  , "schedule", "book a", "set up", "arrange", "plan a", "organize", "coordinate"
  , "catch up", "touch base", "sync up", "check in", "follow up", "get together", "reconnect"
  , "grab coffee", "lunch meeting", "dinner meeting", "video call", "zoom call", "teams meeting"
  , "google meet", "call", "chat", "discuss", "talk", "brainstorm", "review", "briefing"
  , "workshop", "presentation", "demo", "walkthrough"
  , "confirm our", "still on", "are we still", "following up", "checking in", "reminder about"
  , "as agreed", "as discussed", "as planned"
  , "in person", "face to face", "at the office", "remotely", "virtually"
  , "invite you", "join us", "would you be available", "are you free", "are you available"
  , "let's connect", "can we", "could we", "would you like to", "suggest we"
  , "interview", "negotiation", "mediation", "assessment", "evaluation", "training", "onboarding" ]

/-- Exclusion phrases of the classifier that suppress a meeting classification. -/
def excludePhrases : List String :=
  [ "meeting room", "meeting rooms", "meeting point", "meeting place", "meeting link"
  , "meeting id", "meeting password", "meeting agenda", "meeting minutes", "meeting notes"
  , "meeting recording", "meeting schedule", "meeting request", "meeting invitation" ]

/-- Model of the meeting classifier: the cleaned body is computed but the decision
uses the lowered original body, exclusions checked before the inclusion vocabulary,
exactly as in the source. -/
def isMeetingRequest (body : String) : Bool :=
  let _cleanBodyLower := lowerStr (extractLatestMessage body)
  let bodyLower := lowerStr body
  if excludePhrases.any (fun p => strIn p bodyLower) then false
  else meetingPhrases.any (fun p => strIn p bodyLower)

/-- Reschedule keyword vocabulary from the meeting handler. -/
def rescheduleKeywords : List String :=
  [ "reschedule", "re-schedule", "rearrange", "change time"
  , "move", "postpone", "new time", "different time", "adjust"
  , "push back", "push forward", "shift", "relocate", "change our meeting"
  , "alternate time", "rescheduling", "replan", "re-book" ]

/-- Reschedule detection of the handler: keywords against the lowered cleaned body,
and only if that fails the lowered subject. -/
def computeIsReschedule (cleanLower subjLower : String) : Bool :=
  if rescheduleKeywords.any (fun k => strIn k cleanLower) then true
  else rescheduleKeywords.any (fun k => strIn k subjLower)

/-- Scan a regex source text for balanced unescaped parentheses, the aspect of
re.compile relevant here: a pattern with unbalanced parentheses fails to compile. -/
def parenScan : Nat → List Char → Bool
  | depth, [] => depth == 0
  | depth, '\\' :: _ :: rest => parenScan depth rest
  | depth, '\\' :: [] => depth == 0
  | depth, '(' :: rest => parenScan (depth + 1) rest
  | depth, ')' :: rest =>
    match depth with
    | 0 => false
    | d + 1 => parenScan d rest
  | depth, _ :: rest => parenScan depth rest

/-- Does the regex source have balanced parentheses. -/
def parenBalancedOk (pat : String) : Bool := parenScan 0 pat.data

/-- Time-token regex source of the manual fallback strategy, transcribed verbatim
from the source; note the unclosed capture group at the front. -/
def manualTimePattern : String := "(\\d\x7b1,2\x7d:\\d\x7b2\x7d\\s*(?:am|pm)?"

/-- Weekday-token regex source of the manual fallback strategy. -/
def manualDayPattern : String := "(mon|tue|wed|thu|fri|sat|sun)"

/-- Model of re.search with a given pattern source: compilation fails when the
parentheses are unbalanced, otherwise the match result is supplied by the
environment as an oracle. -/
def reSearchChecked (pat : String) (oracle : Option String) : Except PyErr (Option String) :=
  if parenBalancedOk pat then Except.ok oracle else Except.error PyErr.reError

/-- Try block of the manual fallback strategy: search for a time token and a
weekday token, synthesize a next-weekday phrase and parse it.  Parsing is an
oracle; note the absence of a past check in this strategy. -/
def manualFallbackBody (timeSearch daySearch : Option String)
    (dp : String → Except PyErr (Option Int)) (_text : String) :
    Except PyErr (Option Int) :=
  match reSearchChecked manualTimePattern timeSearch with
  | Except.error e => Except.error e
  | Except.ok tm =>
    match reSearchChecked manualDayPattern daySearch with
    | Except.error e => Except.error e
    | Except.ok dm =>
      match tm, dm with
      | some tstr, some dstr =>
        match dp ("next " ++ dstr ++ " at " ++ tstr) with
        | Except.error e => Except.error e
        | Except.ok (some p) => Except.ok (some p)
        | Except.ok none => Except.ok none
      | _, _ => Except.ok none

/-- Manual fallback strategy: the surrounding handler swallows any exception and
returns no result. -/
def detectManualFallback (timeSearch daySearch : Option String)
    (dp : String → Except PyErr (Option Int)) (text : String) : Option Int :=
  match manualFallbackBody timeSearch daySearch dp text with
  | Except.error _ => none
  | Except.ok r => r

/-- Pattern loop of the nlp strategy: for each pattern, the environment supplies
the joined groups of the match when the pattern matched; a matched fragment is
parsed, a failed parse moves to the next pattern, a past parse returns no result
immediately, a future parse is returned. -/
def nlpLoop (now : Int) (dp : String → Except PyErr (Option Int)) :
    List (Option String) → Except PyErr (Option Int)
  | [] => Except.ok none
  | none :: rest => nlpLoop now dp rest
  | some ts :: rest =>
    match dp ts with
    | Except.error e => Except.error e
    | Except.ok none => nlpLoop now dp rest
    | Except.ok (some p) => if p < now then Except.ok none else Except.ok (some p)

/-- Pattern strategy: any exception inside the loop yields no result. -/
def detectWithNlp (ms : List (Option String)) (dp : String → Except PyErr (Option Int))
    (now : Int) (_text : String) : Option Int :=
  match nlpLoop now dp ms with
  | Except.error _ => none
  | Except.ok r => r

/-- Window test for the date-time shape of 19 characters: four digits, dash, two
digits, dash, two digits, space, two digits, colon, two digits, colon, two digits.
On success returns the window with the space replaced by a T, plus the rest. -/
def tryDateShape : List Char → Option (List Char × List Char)
  | a :: b :: c :: d :: e :: f :: g :: h :: i :: j :: k :: l :: m :: n :: o :: p :: q :: r :: s :: rest =>
    if a.isDigit && b.isDigit && c.isDigit && d.isDigit && e == '-' &&
       f.isDigit && g.isDigit && h == '-' && i.isDigit && j.isDigit &&
       k == ' ' && l.isDigit && m.isDigit && n == ':' && o.isDigit && p.isDigit &&
       q == ':' && r.isDigit && s.isDigit then
      some ([a, b, c, d, e, f, g, h, i, j, 'T', l, m, n, o, p, q, r, s], rest)
    else none
  | _ => none

/-- Fuelled leftmost non-overlapping substitution of the date-time shape,
replacing the inner space by a T, modelling the re.sub call of the AI strategy. -/
def subDateSpaceF : Nat → List Char → List Char
  | 0, l => l
  | _ + 1, [] => []
  | fuel + 1, c :: cs =>
    match tryDateShape (c :: cs) with
    | some (w, rest) => w ++ subDateSpaceF fuel rest
    | none => c :: subDateSpaceF fuel cs

/-- Substitution entry point with sufficient fuel. -/
def subDateSpace (s : String) : String := ⟨subDateSpaceF s.data.length s.data⟩

/-- Does a string contain a given character. -/
def strHasChar (s : String) (c : Char) : Bool := s.data.any (fun x => x == c)

/-- Pre-parse transformation of the AI strategy: when the response holds no T,
replace the space of a date-time shape by a T; nothing else is changed. -/
def aiTInsert (response : String) : String :=
  if strHasChar response 'T' then response else subDateSpace response

/-- Argument the AI strategy passes to the dateutil parser, when a parse is
attempted at all. -/
def detectWithAiParseArg (response : String) : Option String :=
  let r := stripStr response
  if lowerStr r == "none" then none else some (aiTInsert r)

/-- AI-assisted strategy: the stripped response is compared against the literal
none, otherwise parsed after the T insertion; a parser exception falls back to
the manual strategy, a past timestamp yields no result. -/
def detectWithAi (response : String) (dup : String → Except PyErr Int)
    (timeSearch daySearch : Option String) (mdp : String → Except PyErr (Option Int))
    (now : Int) (text : String) : Option Int :=
  let r := stripStr response
  if lowerStr r == "none" then none
  else
    match dup (aiTInsert r) with
    | Except.error _ => detectManualFallback timeSearch daySearch mdp text
    | Except.ok dt => if dt < now then none else some dt

/-- Keep only digits, T, colon and dash, modelling the sanitizing re.sub of the
helper detect meeting time. -/
def isTimestampChar (c : Char) : Bool :=
  c.isDigit || c == 'T' || c == ':' || c == '-'

/-- Sanitization of the helper detect meeting time. -/
def keepTimestampChars (s : String) : String := ⟨s.data.filter isTimestampChar⟩

/-- Argument the helper detect meeting time passes to the iso parser, when a
parse is attempted at all: the sanitized response, guarded by non-emptiness and
the literal none. -/
def detectMeetingTimeParseArg (response : String) : Option String :=
  let r := stripStr response
  let c := keepTimestampChars r
  if c != "" && lowerStr c != "none" then some c else none

/-- Row of the processed-emails table, with the fields the correlation query reads. -/
structure ProcessedEmailR where
  emailId : String
  threadId : Option String
  category : String
  sentAt : Int
deriving DecidableEq, Repr

/-- Row of the calendar-events table, with the fields the correlation query reads. -/
structure CalendarEventR where
  rowId : String
  emailId : Option String
  googleEventId : String
  startTime : Int
deriving DecidableEq, Repr

/-- Database snapshot consulted by the core. -/
structure DbState where
  processedEmails : List ProcessedEmailR
  calendarEvents : List CalendarEventR
deriving DecidableEq, Repr

/-- First element of minimal key, ties resolved to the earlier row, modelling a
stable ascending order-by followed by first. -/
def earliestBy (f : α → Int) : List α → Option α
  | [] => none
  | x :: xs =>
    match earliestBy f xs with
    | none => some x
    | some y => if f x ≤ f y then some x else some y

/-- Meeting-category rows of one conversation thread. -/
def meetingRows (db : DbState) (tid : String) : List ProcessedEmailR :=
  db.processedEmails.filter (fun e => e.threadId == some tid && e.category == "meeting")

/-- Model of the thread correlation query: the earliest meeting-category row of
the thread by sent time, then the first calendar event row referencing it. -/
def getCalendarEventByThread (db : DbState) (tid : String) : Option CalendarEventR :=
  match earliestBy (fun e => e.sentAt) (meetingRows db tid) with
  | none => none
  | some orig => (db.calendarEvents.filter (fun ev => ev.emailId == some orig.emailId)).head?

/-- Model of the lookup of a calendar event row by its google event id. -/
def getCalendarEventByGoogleId (db : DbState) (gid : String) : Option CalendarEventR :=
  (db.calendarEvents.filter (fun ev => ev.googleEventId == gid)).head?

/-- Hour of the day of a timestamp in minutes, using euclidean remainder so that
the result lies in the daily range. -/
def hourOf (t : Int) : Int := (t % 1440) / 60

/-- Candidate slots of the live alternative-time search, in generation order:
plus one hour, minus one hour, plus one day plus the original hour again as
extra hours, minus one day, plus one week.  Transcribed from the second, live
definition in the source class. -/
def timeSlots (t : Int) : List Int :=
  [t + 60, t - 60, t + (1440 + 60 * hourOf t), t - 1440, t + 10080]

/-- Collection loop of the alternative-time search: append each available slot
and stop as soon as the requested count is reached. -/
def findAvailLoop (avail : Int → Bool) (maxResults : Nat) (acc : List Int) :
    List Int → List Int
  | [] => acc
  | s :: rest =>
    if avail s then
      let acc2 := acc ++ [s]
      if maxResults ≤ acc2.length then acc2 else findAvailLoop avail maxResults acc2 rest
    else findAvailLoop avail maxResults acc rest

/-- Live alternative-time search: test the five candidate slots in order and
return the first available ones up to the requested count. -/
def findAvailableTimes (avail : Int → Bool) (t : Int) (maxResults : Nat) : List Int :=
  findAvailLoop avail maxResults [] (timeSlots t)

/-- Reference to an existing event supplied to the scheduling step: either a
google event id chosen manually or a stored database row. -/
inductive EventRef where
  | manualId (googleId : String)
  | stored (rowId : String) (googleId : String)
deriving DecidableEq, Repr

/-- Observable side-effect steps of the scheduling step. -/
inductive Step where
  | calUpdate (googleId : String) (startT endT : Int)
  | calCreate (startT endT : Int)
  | dbUpdateEvent (rowId : String) (startT endT : Int)
  | dbLogEvent (googleId : String) (startT endT : Int)
  | emailSend (subject : String)
  | dbLogSent
deriving DecidableEq, Repr

/-- Is a step a calendar mutation. -/
def isCalMutation : Step → Bool
  | Step.calUpdate _ _ _ => true
  | Step.calCreate _ _ => true
  | _ => false

/-- Model of the scheduling step: update the manually selected event, update the
correlated stored event, or create a new one; on success send and log a
confirmation.  The one-hour window is computed from the start time. -/
def scheduleAndConfirm (db : DbState) (calUpdateOk calCreateOk sendOk : Bool)
    (createdEventId : String) (subject : String)
    (existing : Option EventRef) (startTime : Int) : List Step :=
  let endTime := startTime + 60
  let branch : List Step × Bool :=
    match existing with
    | some (EventRef.manualId gid) =>
      if calUpdateOk then
        let dbSteps :=
          match getCalendarEventByGoogleId db gid with
          | some row => [Step.dbUpdateEvent row.rowId startTime endTime]
          | none => []
        (Step.calUpdate gid startTime endTime :: dbSteps, true)
      else ([Step.calUpdate gid startTime endTime], false)
    | some (EventRef.stored rowId gid) =>
      if calUpdateOk then
        ([Step.calUpdate gid startTime endTime, Step.dbUpdateEvent rowId startTime endTime], true)
      else ([Step.calUpdate gid startTime endTime], false)
    | none =>
      if calCreateOk then
        ([Step.calCreate startTime endTime, Step.dbLogEvent createdEventId startTime endTime], true)
      else ([Step.calCreate startTime endTime], false)
  branch.1 ++
    (if branch.2 then
      Step.emailSend subject :: (if sendOk then [Step.dbLogSent] else [])
    else [])

/-- Console answers consumed by the handler during one message. -/
structure ConsoleEnv where
  rescheduleChoice : String
  selectedEvent : Option String
  proposeManually : Bool
  timeConfirm : Bool
  manualTimeEntry : Option Int
  addToCalendar : Bool
  suggestAlternative : Bool
deriving DecidableEq, Repr

/-- Inputs of one run of the meeting handler: the message, the current time, the
database snapshot, the oracles of the external collaborators and the console. -/
structure HandlerEnv where
  rawBody : String
  subject : String
  threadId : Option String
  now : Int
  db : DbState
  nlpMatches : List (Option String)
  nlpParse : String → Except PyErr (Option Int)
  aiResponse : String
  aiParse : String → Except PyErr Int
  manualTimeSearch : Option String
  manualDaySearch : Option String
  manualParse : String → Except PyErr (Option Int)
  avail : Int → Bool
  calUpdateOk : Bool
  calCreateOk : Bool
  sendOk : Bool
  createdEventId : String
  console : ConsoleEnv

/-- Ordered detection strategies of the handler, closed over the environment. -/
def detectionMethods (env : HandlerEnv) : List (String → Option Int) :=
  [ fun t => detectWithNlp env.nlpMatches env.nlpParse env.now t
  , fun t => detectWithAi env.aiResponse env.aiParse env.manualTimeSearch
      env.manualDaySearch env.manualParse env.now t
  , fun t => detectManualFallback env.manualTimeSearch env.manualDaySearch env.manualParse t ]

/-- Strategy loop of the handler: apply each method to the cleaned body and stop
at the first non-empty result. -/
def detectLoop : List (String → Option Int) → String → Option Int
  | [], _ => none
  | m :: rest, t =>
    match m t with
    | some r => some r
    | none => detectLoop rest t

/-- Time-detection chain of the handler. -/
def detectChain (env : HandlerEnv) (text : String) : Option Int :=
  detectLoop (detectionMethods env) text

/-- Correlation step of the handler: consult the thread correlation only for a
reschedule with a thread id; when no stored event exists the console may select
an existing event manually.  The second component records whether the database
was consulted. -/
def correlationStep (env : HandlerEnv) (isRes : Bool) : Option EventRef × Bool :=
  if isRes then
    match env.threadId with
    | some tid =>
      match getCalendarEventByThread env.db tid with
      | some ev => (some (EventRef.stored ev.rowId ev.googleEventId), true)
      | none =>
        if env.console.rescheduleChoice == "2" then
          match env.console.selectedEvent with
          | some gid => (some (EventRef.manualId gid), true)
          | none => (none, true)
        else (none, true)
    | none => (none, false)
  else (none, false)

/-- Decision record produced by one run of the meeting handler. -/
structure HandlerResult where
  isReschedule : Bool
  existingRef : Option EventRef
  dbQueried : Bool
  proposedTime : Option Int
  finalTime : Option Int
  steps : List Step
  alternatives : Option (List Int)
deriving DecidableEq, Repr

/-- Decision tail of the handler once the chain has run: the console confirms
or overrides the time, then availability decides between scheduling and
gathering alternatives.  Returns the proposed time, the final time, the
side-effect steps and the proposed alternatives. -/
def handleDecision (env : HandlerEnv) (existing : Option EventRef) :
    Option Int → Option Int × Option Int × List Step × Option (List Int)
  | none => (none, none, [], none)
  | some t0 =>
    let t1 := if env.console.timeConfirm then t0 else env.console.manualTimeEntry.getD t0
    if env.avail t1 then
      if env.console.addToCalendar then
        (some t0, some t1,
          scheduleAndConfirm env.db env.calUpdateOk env.calCreateOk env.sendOk
            env.createdEventId env.subject existing t1, none)
      else (some t0, some t1, [], none)
    else
      if env.console.suggestAlternative then
        (some t0, some t1, [], some (findAvailableTimes env.avail t1 3))
      else (some t0, some t1, [], none)

/-- Model of the meeting handler: clean the body, detect reschedule intent,
correlate, run the detection chain, then run the decision tail.  The
interactive proposal flow that may follow a failed detection sends prose only
and is outside the decision record. -/
def handleMeetingEmail (env : HandlerEnv) : HandlerResult :=
  let cleanBody := extractLatestMessage env.rawBody
  let isRes := computeIsReschedule (lowerStr cleanBody) (lowerStr env.subject)
  let corr := correlationStep env isRes
  let dec := handleDecision env corr.1 (detectChain env cleanBody)
  { isReschedule := isRes, existingRef := corr.1, dbQueried := corr.2,
    proposedTime := dec.1, finalTime := dec.2.1, steps := dec.2.2.1,
    alternatives := dec.2.2.2 }

/-- Concrete environment used by the witnesses of the chain claims. -/
def chainPastEnv : HandlerEnv :=
  { rawBody := "", subject := "", threadId := none, now := 50,
    db := ⟨[], []⟩,
    nlpMatches := [some "tomorrow at 10pm", none, none],
    nlpParse := fun _ => Except.ok (some 100),
    aiResponse := "none",
    aiParse := fun _ => Except.error PyErr.valueError,
    manualTimeSearch := none, manualDaySearch := none,
    manualParse := fun _ => Except.ok none,
    avail := fun _ => true, calUpdateOk := true, calCreateOk := true, sendOk := true,
    createdEventId := "gid1",
    console := ⟨"1", none, false, true, none, true, false⟩ }

/-- Concrete environment whose nlp parse oracle raises, used by the fallthrough witness. -/
def chainErrEnv : HandlerEnv :=
  { rawBody := "", subject := "", threadId := none, now := 50,
    db := ⟨[], []⟩,
    nlpMatches := [some "tomorrow at 3", none, none],
    nlpParse := fun _ => Except.error PyErr.valueError,
    aiResponse := "none",
    aiParse := fun _ => Except.error PyErr.valueError,
    manualTimeSearch := none, manualDaySearch := none,
    manualParse := fun _ => Except.ok none,
    avail := fun _ => true, calUpdateOk := true, calCreateOk := true, sendOk := true,
    createdEventId := "gid1",
    console := ⟨"1", none, false, true, none, true, false⟩ }

/-- Body used by the counterexample of C6: no boundary anywhere, the per-line
result is above the length threshold, yet the blank line disappears. -/
def blankLineBody : String :=
  "aaaaaaaaaaaaaaaaaaaaaaaaaaaaaaaaaaaaaaaaaaaaaaaaaaaaaaaaaaaa\n\nbbbb"

/-- Is a step a calendar update call. -/
def isUpdateStep : Step → Bool
  | Step.calUpdate _ _ _ => true
  | _ => false

/-- Is a step a calendar create call. -/
def isCreateStep : Step → Bool
  | Step.calCreate _ _ => true
  | _ => false

/-- Database snapshot used by the correlation witness: two meeting rows in the
thread, the earlier one carrying the stored event. -/
def corrDb : DbState :=
  { processedEmails :=
      [ ⟨"m2", some "t1", "meeting", 10⟩
      , ⟨"m1", some "t1", "meeting", 3⟩
      , ⟨"m3", some "t1", "general", 1⟩ ],
    calendarEvents := [ ⟨"row1", some "m1", "g1", 500⟩ ] }

/-- Concrete environment used by the determinism witness. -/
def detEnv : HandlerEnv :=
  { rawBody := "can we meet tomorrow at 10pm", subject := "meeting", threadId := some "t1",
    now := 50, db := ⟨[], []⟩,
    nlpMatches := [some "tomorrow at 10pm", none, none],
    nlpParse := fun _ => Except.ok (some 100),
    aiResponse := "none", aiParse := fun _ => Except.error PyErr.valueError,
    manualTimeSearch := none, manualDaySearch := none,
    manualParse := fun _ => Except.ok none,
    avail := fun _ => true, calUpdateOk := true, calCreateOk := true, sendOk := true,
    createdEventId := "g9", console := ⟨"1", none, false, true, none, true, false⟩ }

/-- The pattern source of the manual fallback strategy fails the parenthesis check. -/
theorem manualTimePattern_unbalanced : parenBalancedOk manualTimePattern = false := by
  decide

/-- Shared lemma: the manual fallback strategy never returns a result, because
its first regex fails to compile and the handler swallows the error. -/
theorem manualFallback_eq_none (timeSearch daySearch : Option String)
    (dp : String → Except PyErr (Option Int)) (text : String) :
    detectManualFallback timeSearch daySearch dp text = none := by
  simp [detectManualFallback, manualFallbackBody, reSearchChecked,
    manualTimePattern_unbalanced]

/-- Shared lemma: a result of the nlp pattern loop is never in the past. -/
theorem nlpLoop_ge (now : Int) (dp : String → Except PyErr (Option Int))
    (ms : List (Option String)) (p : Int)
    (h : nlpLoop now dp ms = Except.ok (some p)) : now ≤ p := by
  induction ms with
  | nil => simp [nlpLoop] at h
  | cons m rest ih =>
    cases m with
    | none => exact ih (by simpa [nlpLoop] using h)
    | some ts =>
      rw [nlpLoop] at h
      cases hp : dp ts with
      | error e => rw [hp] at h; cases h
      | ok r =>
        rw [hp] at h
        cases r with
        | none => exact ih h
        | some v =>
          by_cases hlt : v < now
          · simp [hlt] at h
          · simp [hlt] at h
            omega

/-- Shared lemma: a result of the pattern strategy is never in the past. -/
theorem detectWithNlp_ge (ms : List (Option String))
    (dp : String → Except PyErr (Option Int)) (now : Int) (text : String) (t : Int)
    (h : detectWithNlp ms dp now text = some t) : now ≤ t := by
  rw [detectWithNlp] at h
  cases hl : nlpLoop now dp ms with
  | error e => rw [hl] at h; cases h
  | ok r =>
    rw [hl] at h
    cases r with
    | none => cases h
    | some v => cases h; exact nlpLoop_ge now dp ms t hl

/-- Shared lemma: a result of the AI strategy is never in the past. -/
theorem detectWithAi_ge (response : String) (dup : String → Except PyErr Int)
    (timeSearch daySearch : Option String) (mdp : String → Except PyErr (Option Int))
    (now : Int) (text : String) (t : Int)
    (h : detectWithAi response dup timeSearch daySearch mdp now text = some t) :
    now ≤ t := by
  rw [detectWithAi] at h
  by_cases hn : lowerStr (stripStr response) == "none"
  · simp [hn] at h
  · simp only [hn, if_false, Bool.false_eq_true] at h
    cases hp : dup (aiTInsert (stripStr response)) with
    | error e =>
      rw [hp] at h
      rw [manualFallback_eq_none] at h
      cases h
    | ok dt =>
      rw [hp] at h
      by_cases hlt : dt < now
      · simp [hlt] at h
      · simp [hlt] at h
        omega

/-- C10: for every input text the manual-heuristic strategy returns no result:
its time-token regex source has an unbalanced parenthesis, so compilation
raises, the handler swallows the error, and the function returns none. -/
theorem manual_fallback_always_none (timeSearch daySearch : Option String)
    (dp : String → Except PyErr (Option Int)) (text : String) :
    parenBalancedOk manualTimePattern = false ∧
    detectManualFallback timeSearch daySearch dp text = none :=
  ⟨manualTimePattern_unbalanced, manualFallback_eq_none timeSearch daySearch dp text⟩

/-- C1: the time-detection chain never returns a timestamp strictly earlier than
the current time in the operating timezone. -/
theorem detect_chain_never_past (env : HandlerEnv) (text : String) (t : Int)
    (h : detectChain env text = some t) : env.now ≤ t := by
  rw [detectChain, detectionMethods] at h
  simp only [detectLoop] at h
  cases h1 : detectWithNlp env.nlpMatches env.nlpParse env.now text with
  | some v =>
    rw [h1] at h
    cases h
    exact detectWithNlp_ge _ _ _ _ _ h1
  | none =>
    rw [h1] at h
    cases h2 : detectWithAi env.aiResponse env.aiParse env.manualTimeSearch
        env.manualDaySearch env.manualParse env.now text with
    | some v =>
      rw [h2] at h
      cases h
      exact detectWithAi_ge _ _ _ _ _ _ _ _ h2
    | none =>
      rw [h2, manualFallback_eq_none] at h
      cases h

/-- Witness for C1: a concrete environment where the chain returns a time, which
is then not before the current time. -/
theorem detect_chain_never_past_witness :
    detectChain chainPastEnv "see you tomorrow at 10pm" = some 100 ∧
    chainPastEnv.now ≤ 100 :=
  ⟨by decide,
   detect_chain_never_past chainPastEnv "see you tomorrow at 10pm" 100 (by decide)⟩

/-- C2: the three strategies run in fixed order, a strategy that returns no
result or whose body raises falls through to the next, the chain returns the
first non-empty result and returns none when all three fail. -/
theorem detect_chain_fixed_order (env : HandlerEnv) (text : String) :
    (detectChain env text =
      match detectWithNlp env.nlpMatches env.nlpParse env.now text with
      | some r => some r
      | none =>
        match detectWithAi env.aiResponse env.aiParse env.manualTimeSearch
            env.manualDaySearch env.manualParse env.now text with
        | some r => some r
        | none =>
          detectManualFallback env.manualTimeSearch env.manualDaySearch env.manualParse text) ∧
    (detectWithNlp env.nlpMatches env.nlpParse env.now text = none →
      detectWithAi env.aiResponse env.aiParse env.manualTimeSearch env.manualDaySearch
        env.manualParse env.now text = none →
      detectManualFallback env.manualTimeSearch env.manualDaySearch env.manualParse text = none →
      detectChain env text = none) ∧
    (∀ e, nlpLoop env.now env.nlpParse env.nlpMatches = Except.error e →
      detectChain env text =
        match detectWithAi env.aiResponse env.aiParse env.manualTimeSearch
            env.manualDaySearch env.manualParse env.now text with
        | some r => some r
        | none =>
          detectManualFallback env.manualTimeSearch env.manualDaySearch env.manualParse text) := by
  refine ⟨rfl, ?_, ?_⟩
  · intro h1 h2 h3
    simp [detectChain, detectionMethods, detectLoop, h1, h2, h3]
  · intro e he
    have hn : detectWithNlp env.nlpMatches env.nlpParse env.now text = none := by
      rw [detectWithNlp, he]
    simp [detectChain, detectionMethods, detectLoop, hn, manualFallback_eq_none]

/-- Witness for C2: with a raising pattern strategy and an AI strategy answering
the literal none, the chain falls through to the manual strategy, whose empty
result makes the chain empty. -/
theorem detect_chain_fixed_order_witness : detectChain chainErrEnv "hello" = none := by
  have h := (detect_chain_fixed_order chainErrEnv "hello").2.2 PyErr.valueError (by rfl)
  rw [h]
  decide

/-- C3: a body containing an exclusion phrase is never classified as a meeting
request, whatever meeting-intent phrases it also contains; the classifier works
on the lowered original body with the exclusion check first. -/
theorem meeting_request_exclusion_precedence (body : String)
    (h : excludePhrases.any (fun p => strIn p (lowerStr body)) = true) :
    isMeetingRequest body = false := by
  simp [isMeetingRequest, h]

/-- Witness for C3: a body with both an exclusion phrase and meeting phrases is
rejected. -/
theorem meeting_request_exclusion_precedence_witness :
    excludePhrases.any
      (fun p => strIn p (lowerStr "Please schedule a call. The meeting agenda is attached.")) = true ∧
    meetingPhrases.any
      (fun p => strIn p (lowerStr "Please schedule a call. The meeting agenda is attached.")) = true ∧
    isMeetingRequest "Please schedule a call. The meeting agenda is attached." = false :=
  ⟨by decide, by decide, meeting_request_exclusion_precedence _ (by decide)⟩

/-- Shared lemma: filtering leaves only elements satisfying the predicate. -/
theorem filter_all_true (p : α → Bool) (l : List α) : (l.filter p).all p = true := by
  simp only [List.all_eq_true]
  intro a ha
  exact (List.mem_filter.mp ha).2

/-- C7 amended: the live AI strategy parses the stripped response unchanged
apart from replacing the space of a date-time shape by a T; the keep-only
sanitization to digits, T, colon and dash exists only in the unused helper
detect meeting time, where the parse input is fully sanitized. -/
theorem ai_response_sanitization_location (response : String)
    (dup : String → Except PyErr Int) (timeSearch daySearch : Option String)
    (mdp : String → Except PyErr (Option Int)) (now : Int) (text : String) :
    (detectWithAi response dup timeSearch daySearch mdp now text =
      match detectWithAiParseArg response with
      | none => none
      | some s =>
        match dup s with
        | Except.error _ => detectManualFallback timeSearch daySearch mdp text
        | Except.ok dt => if dt < now then none else some dt) ∧
    (∀ s, detectWithAiParseArg response = some s → s = aiTInsert (stripStr response)) ∧
    (∀ s, detectMeetingTimeParseArg response = some s →
      s = keepTimestampChars (stripStr response) ∧ s.data.all isTimestampChar = true) := by
  refine ⟨?_, ?_, ?_⟩
  · rw [detectWithAi, detectWithAiParseArg]
    by_cases hn : lowerStr (stripStr response) == "none"
    · simp [hn]
    · simp [hn]
  · intro s hs
    rw [detectWithAiParseArg] at hs
    by_cases hn : lowerStr (stripStr response) == "none"
    · simp [hn] at hs
    · simp [hn] at hs
      exact hs.symm
  · intro s hs
    rw [detectMeetingTimeParseArg] at hs
    by_cases hc : (keepTimestampChars (stripStr response) != "" &&
        lowerStr (keepTimestampChars (stripStr response)) != "none") = true
    · simp only [hc, if_true] at hs
      cases hs
      exact ⟨rfl, filter_all_true isTimestampChar (stripStr response).data⟩
    · simp only [hc] at hs
      simp at hs

/-- Witness for C7 amended: a date-time with a space is handed to the parser of
the live AI strategy with only the T inserted. -/
theorem ai_response_sanitization_location_witness :
    ("2025-01-02T03:04:05" : String) = aiTInsert (stripStr " 2025-01-02 03:04:05 ") :=
  (ai_response_sanitization_location " 2025-01-02 03:04:05 " (fun _ => Except.ok 0) none none
    (fun _ => Except.ok none) 0 "").2.1 "2025-01-02T03:04:05" (by decide)

/-- Counterexample for C7: a response with commentary around a valid timestamp
reaches the parser of the live AI strategy unsanitized; the claimed keep-only
sanitization would have produced the bare timestamp instead. -/
theorem ai_response_sanitization_claim_false :
    detectWithAiParseArg "meet at 2025-01-02T03:04:05 ok" =
      some "meet at 2025-01-02T03:04:05 ok" ∧
    keepTimestampChars "meet at 2025-01-02T03:04:05 ok" = "2025-01-02T03:04:05" ∧
    ("meet at 2025-01-02T03:04:05 ok" : String) ≠ "2025-01-02T03:04:05" :=
  ⟨by decide, by decide, by decide⟩

/-- Shared lemma: the collection loop of the alternative-time search returns the
accumulator extended by the first available slots, up to the remaining count. -/
theorem findAvailLoop_spec (avail : Int → Bool) (m : Nat) :
    ∀ (slots acc : List Int), acc.length < m →
      findAvailLoop avail m acc slots = acc ++ (slots.filter avail).take (m - acc.length) := by
  intro slots
  induction slots with
  | nil => intro acc h; simp [findAvailLoop]
  | cons s rest ih =>
    intro acc h
    rw [findAvailLoop]
    by_cases hs : avail s = true
    · simp only [hs, if_true]
      by_cases hm : m ≤ (acc ++ [s]).length
      · rw [if_pos hm]
        have h1 : m - acc.length = 1 := by
          simp only [List.length_append, List.length_singleton] at hm
          omega
        rw [h1]
        simp [List.filter_cons, hs]
      · have h2 : (acc ++ [s]).length < m := by omega
        rw [if_neg hm, ih (acc ++ [s]) h2]
        have h3 : m - acc.length = (m - (acc ++ [s]).length) + 1 := by
          simp only [List.length_append, List.length_singleton] at h2 ⊢
          omega
        simp [List.filter_cons, hs, h3, List.take_succ_cons]
    · have hs2 : avail s = false := by revert hs; cases avail s <;> simp
      simp [hs2, List.filter_cons, ih acc h]

/-- Shared lemma: with a requested count of zero the loop still appends the
first available slot before checking the bound, so exactly one is returned. -/
theorem findAvailLoop_zero (avail : Int → Bool) :
    ∀ (slots acc : List Int),
      findAvailLoop avail 0 acc slots = acc ++ (slots.filter avail).take 1 := by
  intro slots
  induction slots with
  | nil => intro acc; simp [findAvailLoop]
  | cons s rest ih =>
    intro acc
    rw [findAvailLoop]
    by_cases hs : avail s = true
    · simp only [hs, if_true]
      rw [if_pos (Nat.zero_le _)]
      simp [List.filter_cons, hs]
    · have hs2 : avail s = false := by revert hs; cases avail s <;> simp
      simp [hs2, List.filter_cons, ih acc]

/-- C5 amended: the live alternative-time search generates exactly the five
candidates plus one hour, minus one hour, plus one day plus the original hour
again, minus one day, plus one week, with no day-offset horizon scan; the loop
appends an available slot before checking the bound, so for every requested
count it returns, in generation order, the first max 1 count available
candidates, stopping early, and never returns an unavailable slot. -/
theorem find_available_times_live (avail : Int → Bool) (t : Int) (m : Nat) :
    timeSlots t = [t + 60, t - 60, t + (1440 + 60 * hourOf t), t - 1440, t + 10080] ∧
    findAvailableTimes avail t m = ((timeSlots t).filter avail).take (max 1 m) ∧
    (∀ s ∈ findAvailableTimes avail t m, avail s = true) := by
  have hmain : findAvailableTimes avail t m = ((timeSlots t).filter avail).take (max 1 m) := by
    cases m with
    | zero =>
      rw [findAvailableTimes, findAvailLoop_zero avail _ []]
      simp [show max 1 0 = 1 from rfl]
    | succ k =>
      have hz : ([] : List Int).length < k + 1 := by simp
      rw [findAvailableTimes, findAvailLoop_spec avail (k + 1) _ [] hz]
      simp [max_eq_right (show (1 : Nat) ≤ k + 1 by omega)]
  refine ⟨rfl, hmain, ?_⟩
  intro s hs
  rw [hmain] at hs
  exact (List.mem_filter.mp (List.mem_of_mem_take hs)).2

/-- Witness for C5 amended: with everything available a requested count of zero
still returns one slot, and a returned slot is indeed available. -/
theorem find_available_times_live_witness :
    findAvailableTimes (fun _ => true) 600 0 = [660] ∧
    ((fun (_ : Int) => true) 660 = true) :=
  ⟨by decide,
   (find_available_times_live (fun _ => true) 600 0).2.2 660 (by decide)⟩

/-- Counterexample for C5: at ten in the morning the third generated candidate
is the original plus one day plus ten further hours, not plus one day; and a
slot two days ahead is never generated, because the live definition has no
day-offset horizon scan. -/
theorem find_available_times_claim_false :
    findAvailableTimes (fun _ => true) 600 3 = [660, 540, 2640] ∧
    findAvailableTimes (fun _ => true) 600 3 ≠ [660, 540, 2040] ∧
    findAvailableTimes (fun s => s == 600 + 2 * 1440) 600 3 = [] :=
  ⟨by decide, by decide, by decide⟩

/-- Shared lemma: when no boundary pattern matches any line, the line loop keeps
exactly the non-blank lines not starting with a quote marker. -/
theorem keepLines_of_no_boundary (ls : List (List Char))
    (h : ls.all (fun l => !lineMatchesAny l) = true) :
    keepLines ls = ls.filter (fun l => !(isBlankLine l || isQuoteStart l)) := by
  induction ls with
  | nil => rfl
  | cons l rest ih =>
    rw [List.all_cons, Bool.and_eq_true] at h
    have h1 : lineMatchesAny l = false := by
      have h0 := h.1
      revert h0
      cases lineMatchesAny l <;> simp
    have ih2 := ih h.2
    rw [List.filter_cons]
    by_cases hq : (isBlankLine l || isQuoteStart l) = true
    · rw [keepLines, if_neg (by simp [h1]), if_pos hq, ih2]
      simp [hq]
    · have hq2 : (isBlankLine l || isQuoteStart l) = false := by
        revert hq
        cases (isBlankLine l || isQuoteStart l) <;> simp
      rw [keepLines, if_neg (by simp [h1]), if_neg hq, ih2]
      simp [hq2]

/-- C6 amended: the extractor is total, and in the worst case, when no boundary
pattern applies to any line and either the per-line result reaches the
minimum-length threshold or the greedy fallback finds no boundary, it returns
the original body with whitespace-only lines and quote-marked lines removed,
remaining lines joined by single newlines and stripped of surrounding
whitespace, rather than the body verbatim. -/
theorem extract_worst_case_behavior (body : String)
    (hl : (splitLinesL body.data).all (fun l => !lineMatchesAny l) = true)
    (hwc : 50 ≤ (joinNl (keepLines (splitLinesL body.data))).length ∨
      greedyBoundaryCut body.data = none) :
    extractLatestMessage body =
      ⟨stripL (joinNl ((splitLinesL body.data).filter
        (fun l => !(isBlankLine l || isQuoteStart l))))⟩ := by
  have hk := keepLines_of_no_boundary _ hl
  simp only [extractLatestMessage, extractLatestMessageL, hk]
  by_cases hlen : (joinNl ((splitLinesL body.data).filter
      (fun l => !(isBlankLine l || isQuoteStart l)))).length < 50
  · rw [if_pos hlen]
    rcases hwc with hge | hg
    · rw [hk] at hge
      omega
    · rw [hg]
  · rw [if_neg hlen]

/-- Witness for C6 amended: a body whose attribution boundary only completes
across a newline keeps its per-line result above the threshold, so the greedy
fallback never runs even though a cross-line boundary exists, and the body
comes back in filtered-joined form, here unchanged. -/
theorem extract_worst_case_behavior_witness :
    greedyBoundaryCut ("On Monday\nwe wrote: aaaaaaaaaaaaaaaaaaaaaaaaaaaaaaaaaaaaaaaaaa").data = some [] ∧
    extractLatestMessage "On Monday\nwe wrote: aaaaaaaaaaaaaaaaaaaaaaaaaaaaaaaaaaaaaaaaaa" = "On Monday\nwe wrote: aaaaaaaaaaaaaaaaaaaaaaaaaaaaaaaaaaaaaaaaaa" := by
  refine ⟨by decide, ?_⟩
  have h := extract_worst_case_behavior "On Monday\nwe wrote: aaaaaaaaaaaaaaaaaaaaaaaaaaaaaaaaaaaaaaaaaa" (by decide) (Or.inl (by decide))
  rw [h]
  decide

/-- Counterexample for C6: in the worst case the extractor does not return the
body unmodified, because blank lines are dropped and single newlines rejoin the
rest. -/
theorem extract_identity_claim_false :
    (splitLinesL blankLineBody.data).all (fun l => !lineMatchesAny l) = true ∧
    50 ≤ (joinNl (keepLines (splitLinesL blankLineBody.data))).length ∧
    extractLatestMessage blankLineBody ≠ blankLineBody :=
  ⟨by decide, by decide, by decide⟩

/-- C4: the scheduling step emits exactly one calendar mutation, an update
exactly when an existing event reference was supplied and a create exactly when
none was; it never emits both for one message. -/
theorem schedule_single_mutation (db : DbState) (uOk cOk sOk : Bool)
    (cid subject : String) (existing : Option EventRef) (startT : Int) :
    ((scheduleAndConfirm db uOk cOk sOk cid subject existing startT).filter
      isCalMutation).length = 1 ∧
    (scheduleAndConfirm db uOk cOk sOk cid subject existing startT).any isUpdateStep =
      existing.isSome ∧
    (scheduleAndConfirm db uOk cOk sOk cid subject existing startT).any isCreateStep =
      existing.isNone := by
  cases existing with
  | none =>
    cases cOk <;> cases sOk <;>
      simp [scheduleAndConfirm, isCalMutation, isUpdateStep, isCreateStep]
  | some ref =>
    cases ref with
    | manualId gid =>
      cases uOk <;> cases sOk <;>
        cases hdb : getCalendarEventByGoogleId db gid <;>
          simp [scheduleAndConfirm, isCalMutation, isUpdateStep, isCreateStep, hdb]
    | stored rid gid =>
      cases uOk <;> cases sOk <;>
        simp [scheduleAndConfirm, isCalMutation, isUpdateStep, isCreateStep]

/-- Shared lemma: a nonempty list always has an earliest element. -/
theorem earliestBy_none_iff {α : Type} (f : α → Int) (l : List α)
    (h : earliestBy f l = none) : l = [] := by
  cases l with
  | nil => rfl
  | cons a rest =>
    rw [earliestBy] at h
    cases he : earliestBy f rest with
    | none =>
      simp only [he] at h
      cases h
    | some m =>
      simp only [he] at h
      by_cases hle : f a ≤ f m
      · rw [if_pos hle] at h; cases h
      · rw [if_neg hle] at h; cases h

/-- Shared lemma: the earliest element belongs to the list. -/
theorem earliestBy_mem {α : Type} (f : α → Int) (l : List α) :
    ∀ x, earliestBy f l = some x → x ∈ l := by
  induction l with
  | nil => intro x h; cases h
  | cons a rest ih =>
    intro x h
    rw [earliestBy] at h
    cases he : earliestBy f rest with
    | none =>
      simp only [he, Option.some.injEq] at h
      subst h
      exact List.mem_cons_self _ _
    | some m =>
      simp only [he] at h
      by_cases hle : f a ≤ f m
      · rw [if_pos hle] at h
        cases h
        exact List.mem_cons_self _ _
      · rw [if_neg hle] at h
        cases h
        exact List.mem_cons_of_mem _ (ih _ he)

/-- Shared lemma: the earliest element has minimal key over the list. -/
theorem earliestBy_min {α : Type} (f : α → Int) (l : List α) :
    ∀ x, earliestBy f l = some x → ∀ y ∈ l, f x ≤ f y := by
  induction l with
  | nil => intro x h; cases h
  | cons a rest ih =>
    intro x h y hy
    rw [earliestBy] at h
    cases he : earliestBy f rest with
    | none =>
      simp only [he, Option.some.injEq] at h
      subst h
      have hrest : rest = [] := earliestBy_none_iff f rest he
      subst hrest
      rcases List.mem_cons.mp hy with h1 | h2
      · subst h1; exact le_refl _
      · cases h2
    | some m =>
      simp only [he] at h
      by_cases hle : f a ≤ f m
      · rw [if_pos hle] at h
        cases h
        rcases List.mem_cons.mp hy with h1 | h2
        · subst h1; exact le_refl _
        · exact le_trans hle (ih _ he y h2)
      · rw [if_neg hle] at h
        cases h
        rcases List.mem_cons.mp hy with h1 | h2
        · subst h1; exact le_of_lt (lt_of_not_le hle)
        · exact ih _ he y h2

/-- Shared lemma: the reschedule flag of the handler result is the computed
reschedule intent. -/
theorem handler_isReschedule_eq (env : HandlerEnv) :
    (handleMeetingEmail env).isReschedule =
      computeIsReschedule (lowerStr (extractLatestMessage env.rawBody))
        (lowerStr env.subject) := rfl

/-- Shared lemma: the database-consulted flag of the handler result comes from
the correlation step. -/
theorem handler_dbQueried_eq (env : HandlerEnv) :
    (handleMeetingEmail env).dbQueried =
      (correlationStep env
        (computeIsReschedule (lowerStr (extractLatestMessage env.rawBody))
          (lowerStr env.subject))).2 := rfl

/-- C8: a successful thread correlation returns a calendar event associated with
an earliest meeting-category message of the conversation; with no such message
there is no result; and the handler consults the correlation only when
reschedule intent was detected. -/
theorem thread_correlation_earliest (db : DbState) (tid : String) :
    (∀ ev, getCalendarEventByThread db tid = some ev →
      ∃ e, e ∈ db.processedEmails ∧ e.threadId = some tid ∧ e.category = "meeting" ∧
        (∀ e2 ∈ db.processedEmails, e2.threadId = some tid → e2.category = "meeting" →
          e.sentAt ≤ e2.sentAt) ∧
        ev ∈ db.calendarEvents ∧ ev.emailId = some e.emailId) ∧
    (meetingRows db tid = [] → getCalendarEventByThread db tid = none) ∧
    (∀ env : HandlerEnv, (handleMeetingEmail env).isReschedule = false →
      (handleMeetingEmail env).dbQueried = false) := by
  refine ⟨?_, ?_, ?_⟩
  · intro ev h
    rw [getCalendarEventByThread] at h
    cases he : earliestBy (fun e => e.sentAt) (meetingRows db tid) with
    | none =>
      simp only [he] at h
      cases h
    | some orig =>
      simp only [he] at h
      have hmem := earliestBy_mem _ _ _ he
      rw [meetingRows, List.mem_filter] at hmem
      obtain ⟨hmem1, hmem2⟩ := hmem
      rw [Bool.and_eq_true, beq_iff_eq, beq_iff_eq] at hmem2
      refine ⟨orig, hmem1, hmem2.1, hmem2.2, ?_, ?_⟩
      · intro e2 he2 ht2 hc2
        refine earliestBy_min _ _ _ he e2 ?_
        rw [meetingRows, List.mem_filter]
        exact ⟨he2, by rw [Bool.and_eq_true, beq_iff_eq, beq_iff_eq]; exact ⟨ht2, hc2⟩⟩
      · cases hf : List.filter (fun ev2 => ev2.emailId == some orig.emailId) db.calendarEvents with
        | nil => rw [hf] at h; simp at h
        | cons b bs =>
          rw [hf] at h
          simp only [List.head?_cons, Option.some.injEq] at h
          subst h
          have hb : b ∈ List.filter (fun ev2 => ev2.emailId == some orig.emailId) db.calendarEvents := by
            rw [hf]; exact List.mem_cons_self _ _
          rw [List.mem_filter, beq_iff_eq] at hb
          exact ⟨hb.1, hb.2⟩
  · intro h
    rw [getCalendarEventByThread, h]
    rfl
  · intro env h
    rw [handler_isReschedule_eq] at h
    rw [handler_dbQueried_eq, h]
    rfl

/-- Witness for C8: on the concrete snapshot the lookup returns the event of the
earliest meeting row. -/
theorem thread_correlation_earliest_witness :
    ∃ e, e ∈ corrDb.processedEmails ∧ e.threadId = some "t1" ∧ e.category = "meeting" ∧
      (∀ e2 ∈ corrDb.processedEmails, e2.threadId = some "t1" → e2.category = "meeting" →
        e.sentAt ≤ e2.sentAt) ∧
      (⟨"row1", some "m1", "g1", 500⟩ : CalendarEventR) ∈ corrDb.calendarEvents ∧
      (⟨"row1", some "m1", "g1", 500⟩ : CalendarEventR).emailId = some e.emailId :=
  (thread_correlation_earliest corrDb "t1").1 ⟨"row1", some "m1", "g1", 500⟩ (by decide)

/-- C9: two runs of the meeting handler on identical inputs, the same message,
current time, database snapshot, collaborator responses and console answers,
produce the same decision record with the same payload. -/
theorem handler_deterministic (e1 e2 : HandlerEnv)
    (hBody : e1.rawBody = e2.rawBody) (hSubj : e1.subject = e2.subject)
    (hThread : e1.threadId = e2.threadId) (hNow : e1.now = e2.now)
    (hDb : e1.db = e2.db) (hNlpM : e1.nlpMatches = e2.nlpMatches)
    (hNlpP : e1.nlpParse = e2.nlpParse) (hAiR : e1.aiResponse = e2.aiResponse)
    (hAiP : e1.aiParse = e2.aiParse) (hMts : e1.manualTimeSearch = e2.manualTimeSearch)
    (hMds : e1.manualDaySearch = e2.manualDaySearch) (hMp : e1.manualParse = e2.manualParse)
    (hAv : e1.avail = e2.avail) (hU : e1.calUpdateOk = e2.calUpdateOk)
    (hC : e1.calCreateOk = e2.calCreateOk) (hS : e1.sendOk = e2.sendOk)
    (hCe : e1.createdEventId = e2.createdEventId) (hCon : e1.console = e2.console) :
    handleMeetingEmail e1 = handleMeetingEmail e2 := by
  cases e1 with
  | mk b1 s1 t1 n1 d1 nm1 np1 ar1 ap1 mt1 md1 mp1 av1 u1 c1 so1 ce1 co1 =>
  cases e2 with
  | mk b2 s2 t2 n2 d2 nm2 np2 ar2 ap2 mt2 md2 mp2 av2 u2 c2 so2 ce2 co2 =>
  have g1 : b1 = b2 := hBody
  have g2 : s1 = s2 := hSubj
  have g3 : t1 = t2 := hThread
  have g4 : n1 = n2 := hNow
  have g5 : d1 = d2 := hDb
  have g6 : nm1 = nm2 := hNlpM
  have g7 : np1 = np2 := hNlpP
  have g8 : ar1 = ar2 := hAiR
  have g9 : ap1 = ap2 := hAiP
  have g10 : mt1 = mt2 := hMts
  have g11 : md1 = md2 := hMds
  have g12 : mp1 = mp2 := hMp
  have g13 : av1 = av2 := hAv
  have g14 : u1 = u2 := hU
  have g15 : c1 = c2 := hC
  have g16 : so1 = so2 := hS
  have g17 : ce1 = ce2 := hCe
  have g18 : co1 = co2 := hCon
  subst g1 g2 g3 g4 g5 g6 g7 g8 g9 g10 g11 g12 g13 g14 g15 g16 g17 g18
  rfl

/-- Witness for C9: a second run on the same concrete environment returns the
same record. -/
theorem handler_deterministic_witness :
    handleMeetingEmail detEnv = handleMeetingEmail detEnv :=
  handler_deterministic detEnv detEnv rfl rfl rfl rfl rfl rfl rfl rfl rfl rfl rfl rfl
    rfl rfl rfl rfl rfl rfl
